import Mathlib

/-!
Shallow embedding of the learndb-py backend core: the session lifecycle
manager (backend/core/session_manager.py) and the submission validation and
progression engine (backend/core/challenge_engine.py), together with the
static gamification tables (backend/models/challenge.py).

Python machine model used throughout:
- Python ints are Int (unbounded), Python floor division (the // operator)
  is Int.fdiv.
- Python floats appearing in query results are modelled as rationals; the
  only operations performed on them are subtraction, absolute value and
  comparison against the literal tolerance 0.0001, which are exact here.
- Python dicts are association lists with unique keys; dict.get returning
  None is modelled by a lookup with a null default.
- str.lower is modelled by pyLower (they agree on ASCII, which is
  all the backend ever compares).
- The external query engine (LearnDBAdapter wrapping LearnDB) is a black
  box behind EngineOps: an abstract state type DB with exec, reset and
  fresh/attach construction, mirroring the adapter surface the core uses.
- datetime.utcnow() is threaded as an explicit timestamp argument.
-/

set_option autoImplicit false

namespace LearnDB

/-- A single quote character, used when rebuilding Python f-string output. -/
def sq : String := String.singleton (Char.ofNat 39)

/-- Python str.lower, character by character (identical to String.toLower,
written over the character list so that it evaluates by kernel reduction;
agrees with Python on ASCII, which is all the backend compares). -/
def pyLower (s : String) : String := String.mk (s.data.map Char.toLower)

/-- A value stored in a result row (Python: None, int, float or str). -/
inductive Value where
  | null : Value
  | int (n : Int) : Value
  | float (q : ℚ) : Value
  | str (s : String) : Value
deriving DecidableEq, Repr

/-- A result row: a Python dict from column name to value. -/
abbrev Row := List (String × Value)

/-- Python dict assignment d[k] = v: replace the value in place if the key is
present, otherwise append the binding at the end. -/
def dset {α : Type} (d : List (String × α)) (k : String) (v : α) :
    List (String × α) :=
  match d with
  | [] => [(k, v)]
  | kv :: rest => if kv.1 = k then (k, v) :: rest else kv :: dset rest k v

/-- Python dict lookup d.get(k) as an Option. -/
def dget {α : Type} (d : List (String × α)) (k : String) : Option α :=
  (d.find? (fun kv => kv.1 = k)).map (fun kv => kv.2)

/-- Python del d[k]: remove the binding for k. -/
def derase {α : Type} (d : List (String × α)) (k : String) :
    List (String × α) :=
  match d with
  | [] => []
  | kv :: rest => if kv.1 = k then derase rest k else kv :: derase rest k

/-- Python dict.get(k) on a row, where a missing key yields None. -/
def dgetD (d : Row) (k : String) : Value :=
  match d.find? (fun kv => kv.1 = k) with
  | some kv => kv.2
  | none => Value.null

/-- Every key of the first dict occurs among the keys of the second;
two-sided keysSub is Python set(d1.keys()) == set(d2.keys()). -/
def keysSub {α : Type} (d₁ d₂ : List (String × α)) : Bool :=
  d₁.all (fun kv => d₂.any (fun kv' => kv'.1 = kv.1))

/-- The key-lowercasing dict comprehension from rows_equal:
later duplicate keys overwrite earlier ones, as in Python. -/
def normKeys (d : Row) : Row :=
  d.foldl (fun acc kv => dset acc (pyLower kv.1) kv.2) []

/-- Python equality between two row values: None equals None, numbers
compare numerically across int/float, strings compare as strings, and
values of different kinds are unequal. -/
def pyEq : Value → Value → Bool
  | Value.null, Value.null => true
  | Value.int m, Value.int n => decide (m = n)
  | Value.int m, Value.float q => decide ((m : ℚ) = q)
  | Value.float q, Value.int m => decide (q = (m : ℚ))
  | Value.float p, Value.float q => decide (p = q)
  | Value.str s, Value.str t => decide (s = t)
  | _, _ => false

/-- One value comparison step of ChallengeEngine._rows_equal: lower-case
both sides when both are strings and the rule is case-insensitive, compare
two floats within absolute tolerance 0.0001, and otherwise use Python
equality. -/
def valMatch (e a : Value) (case_sensitive : Bool) : Bool :=
  let p : Value × Value :=
    match e, a with
    | Value.str s, Value.str t =>
        if !case_sensitive then (Value.str (pyLower s), Value.str (pyLower t))
        else (Value.str s, Value.str t)
    | x, y => (x, y)
  match p.1, p.2 with
  | Value.float x, Value.float y => decide (|x - y| ≤ 1 / 10000)
  | x, y => pyEq x y

/-- ChallengeEngine._rows_equal: normalize both rows to lower-case keys,
require equal key sets, then require every value of the expected row to
match the corresponding value of the actual row. -/
def rows_equal (expected actual : Row) (case_sensitive : Bool) : Bool :=
  let en := normKeys expected
  let an := normKeys actual
  keysSub en an && keysSub an en &&
    en.all (fun kv => valMatch kv.2 (dgetD an kv.1) case_sensitive)

/-- Result of a query execution (learndb_adapter.QueryResult). -/
structure QueryResult where
  success : Bool
  rows : List Row := []
  columns : List String := []
  row_count : Int := 0
  error_message : Option String := none
  execution_time_ms : ℚ := 0
deriving DecidableEq, Repr

/-- Python str() of an optional string: f-string interpolation prints the
string itself, and prints None as the four letters None. -/
def pyStrOpt : Option String → String
  | some s => s
  | none => "None"

/-- Best-effort Python repr of a row value, used only to rebuild feedback
strings that interpolate a whole row. -/
def pyReprValue : Value → String
  | Value.null => "None"
  | Value.int n => toString n
  | Value.float q => toString q
  | Value.str s => sq ++ s ++ sq

/-- Best-effort Python repr of a row dict, used only in feedback text. -/
def pyReprRow (r : Row) : String :=
  "\x7b" ++ String.intercalate ", "
    (r.map (fun kv => sq ++ kv.1 ++ sq ++ ": " ++ pyReprValue kv.2)) ++ "\x7d"

/-- Best-effort Python repr of a set of strings, used only in feedback
text; elements are listed in first-occurrence order. -/
def pyReprStrSet (l : List String) : String :=
  "\x7b" ++ String.intercalate ", " (l.map (fun c => sq ++ c ++ sq)) ++ "\x7d"

/-- A validation rule (models.ValidationRule): the ValidationType tag
together with the payload the content catalog supplies for that tag
(an int for row_count, a list of row dicts for exact_match and
contains_rows, a list of column names for column_check). -/
inductive ValidationRule where
  | row_count (expected : Int) (order_matters case_sensitive : Bool)
  | exact_match (expected : List Row) (order_matters case_sensitive : Bool)
  | contains_rows (expected : List Row) (order_matters case_sensitive : Bool)
  | column_check (expected : List String) (order_matters case_sensitive : Bool)
deriving DecidableEq, Repr

/-- Index of the first positional pair of rows that fails rows_equal
(the enumerate loop of the order-sensitive exact_match branch). -/
def firstPosMismatch (cs : Bool) : List Row → List Row → Nat → Option Nat
  | e :: es, a :: al, i =>
      if rows_equal e a cs then firstPosMismatch cs es al (i + 1) else some i
  | _, _, _ => none

/-- First expected row that has no rows_equal partner among the actual
rows (the unordered exact_match and contains_rows loops). -/
def firstMissing (cs : Bool) (al : List Row) : List Row → Option Row
  | [] => none
  | e :: es =>
      if al.any (fun a => rows_equal e a cs) then firstMissing cs al es
      else some e

/-- First-occurrence deduplication, modelling iteration over a Python set
built from a list (element order is not observable to any claim). -/
def dedupKeep : List String → List String
  | [] => []
  | c :: cs => c :: (dedupKeep cs).filter (fun c' => ¬ c' = c)

/-- Membership-as-set equality of two string lists, modelling Python
set equality for the column check. -/
def strSetEq (l₁ l₂ : List String) : Bool :=
  l₁.all (fun c => l₂.contains c) && l₂.all (fun c => l₁.contains c)

/-- ChallengeEngine._check_rule: evaluate one validation rule against a
query result, returning the verdict and the feedback text. -/
def check_rule (result : QueryResult) (rule : ValidationRule) : Bool × String :=
  match rule with
  | ValidationRule.row_count expected _ _ =>
      if result.row_count ≠ expected then
        (false, "Expected " ++ toString expected ++ " rows, got " ++
          toString result.row_count)
      else (true, "Row count matches")
  | ValidationRule.exact_match expected_rows om cs =>
      if result.rows.length ≠ expected_rows.length then
        (false, "Expected " ++ toString expected_rows.length ++ " rows, got " ++
          toString result.rows.length)
      else if om then
        match firstPosMismatch cs expected_rows result.rows 0 with
        | some i =>
            (false, "Row " ++ toString (i + 1) ++ " doesn" ++ sq ++
              "t match expected output")
        | none => (true, "Output matches expected")
      else
        match firstMissing cs result.rows expected_rows with
        | some e => (false, "Missing expected row: " ++ pyReprRow e)
        | none => (true, "Output matches expected")
  | ValidationRule.contains_rows expected_rows _ cs =>
      match firstMissing cs result.rows expected_rows with
      | some _ => (false, "Missing required row in output")
      | none => (true, "Contains all required rows")
  | ValidationRule.column_check expected_cols _ _ =>
      let ec := dedupKeep (expected_cols.map pyLower)
      let ac := dedupKeep (result.columns.map pyLower)
      if strSetEq ec ac then (true, "Columns match")
      else
        let missing := ec.filter (fun c => ¬ ac.contains c)
        let extra := ac.filter (fun c => ¬ ec.contains c)
        (false, "Column mismatch." ++
          (if missing ≠ [] then " Missing: " ++ pyReprStrSet missing ++ "."
           else "") ++
          (if extra ≠ [] then " Unexpected: " ++ pyReprStrSet extra ++ "."
           else ""))

/-- ChallengeEngine._validate_against_rules: evaluate the rules in
declared order, short-circuiting on the first failing rule. -/
def validate_against_rules (result : QueryResult) :
    List ValidationRule → Bool × String
  | [] => (true, "All validations passed! Great job!")
  | rule :: rest =>
      let pf := check_rule result rule
      if pf.1 then validate_against_rules result rest else (false, pf.2)

/-- One entry of a session's query history (session_manager.QueryHistoryItem). -/
structure QueryHistoryItem where
  sql : String
  timestamp : String
  success : Bool
  execution_time_ms : ℚ
  row_count : Int := 0
  error_message : Option String := none
deriving DecidableEq, Repr

/-- A user session (session_manager.Session). The runtime adapter handle is
an Option over the abstract engine state, mirroring the nullable field. -/
structure Session (DB : Type) where
  session_id : String
  db_path : String
  created_at : String
  last_activity_at : String
  is_active : Bool := true
  current_mode : String := "sandbox"
  current_challenge_id : Option String := none
  current_tutorial_id : Option String := none
  query_history : List QueryHistoryItem := []
  adapter : Option DB := none
deriving DecidableEq

/-- The external engine boundary (LearnDBAdapter as used by the core):
exec runs one statement and returns the structured result plus the evolved
engine state, resetDB models adapter.reset, fresh models constructing an
adapter with nuke_db_file=True, attach models the defensive re-attach
constructor used by get_session. -/
structure EngineOps (DB : Type) where
  exec : DB → String → QueryResult × DB
  resetDB : DB → DB
  fresh : DB
  attach : DB

/-- The session registry state (session_manager.SessionManager fields).
The filesystem side (sessions_dir contents) is external and not modelled;
db_path strings are carried only as data. -/
structure SMState (DB : Type) where
  sessions_dir : String := "/tmp/learndb_sessions"
  max_session_age_hours : Int := 24
  max_history_items : Nat := 100
  sessions : List (String × Session DB) := []
deriving DecidableEq

/-- Python lst[-n:]. Note that -0 is 0, so n = 0 yields the whole list,
not the empty list. -/
def pySliceLast {α : Type} (n : Nat) (l : List α) : List α :=
  if n = 0 then l else l.drop (l.length - n)

/-- The history trim step of execute_query: if the history exceeds the
cap, keep the slice lst[-max:]. -/
def trimH {α : Type} (m : Nat) (l : List α) : List α :=
  if l.length > m then pySliceLast m l else l

/-- The not-found failure result produced when a session id is absent. -/
def sessionNotFound (sid : String) : QueryResult :=
  { success := false,
    error_message := some ("Session " ++ sq ++ sid ++ sq ++ " not found") }

/-- SessionManager.create_session: the fresh uuid and current timestamp
are threaded as arguments. -/
def create_session {DB : Type} (ops : EngineOps DB) (st : SMState DB)
    (sid now : String) : Session DB × SMState DB :=
  let s : Session DB :=
    { session_id := sid,
      db_path := st.sessions_dir ++ "/" ++ sid ++ "/db.file",
      created_at := now, last_activity_at := now, is_active := true,
      adapter := some ops.fresh }
  (s, { st with sessions := dset st.sessions sid s })

/-- SessionManager.get_session: return the session only if present and
active, stamping last activity and re-attaching an adapter handle if the
field was None. In-place mutation of the session object is modelled by
writing the updated session back into the registry map. -/
def get_session {DB : Type} (ops : EngineOps DB) (now : String)
    (st : SMState DB) (sid : String) : Option (Session DB) × SMState DB :=
  match dget st.sessions sid with
  | none => (none, st)
  | some s =>
      if s.is_active then
        let s' := { s with last_activity_at := now,
                           adapter := some (s.adapter.getD ops.attach) }
        (some s', { st with sessions := dset st.sessions sid s' })
      else (none, st)

/-- SessionManager.execute_query: resolve the session (absent yields the
not-found result), run the statement through the engine, append the
outcome to the history and trim it to the cap, and return the engine
result untouched. -/
def execute_query {DB : Type} (ops : EngineOps DB) (now : String)
    (st : SMState DB) (sid sql : String) : QueryResult × SMState DB :=
  match get_session ops now st sid with
  | (none, st') => (sessionNotFound sid, st')
  | (some s, st') =>
      let db := s.adapter.getD ops.attach
      let rd := ops.exec db sql
      let item : QueryHistoryItem :=
        { sql := sql, timestamp := now, success := rd.1.success,
          execution_time_ms := rd.1.execution_time_ms,
          row_count := rd.1.row_count,
          error_message := rd.1.error_message }
      let s' := { s with adapter := some rd.2,
                         query_history :=
                           trimH st'.max_history_items
                             (s.query_history ++ [item]) }
      (rd.1, { st' with sessions := dset st'.sessions sid s' })

/-- SessionManager.reset_session: reinitialize the backing store and clear
the history; false when the session is absent. -/
def reset_session {DB : Type} (ops : EngineOps DB) (now : String)
    (st : SMState DB) (sid : String) : Bool × SMState DB :=
  match get_session ops now st sid with
  | (none, st') => (false, st')
  | (some s, st') =>
      let s' := { s with adapter := some (ops.resetDB (s.adapter.getD ops.attach)),
                         query_history := [] }
      (true, { st' with sessions := dset st'.sessions sid s' })

/-- SessionManager.delete_session: absent ids report false; otherwise the
adapter is closed (an external effect with errors suppressed), the session
directory is removed (external), and the entry is deleted from the map.
The removed object is also marked inactive, which is unobservable once the
entry is gone. -/
def delete_session {DB : Type} (st : SMState DB) (sid : String) :
    Bool × SMState DB :=
  match dget st.sessions sid with
  | none => (false, st)
  | some _ => (true, { st with sessions := derase st.sessions sid })

/-- SessionManager.get_query_history: a copy of the history, or empty when
the session is absent. -/
def get_query_history {DB : Type} (ops : EngineOps DB) (now : String)
    (st : SMState DB) (sid : String) : List QueryHistoryItem × SMState DB :=
  match get_session ops now st sid with
  | (none, st') => ([], st')
  | (some s, st') => (s.query_history, st')

/-- Abbreviation for the session as get_session rewrites it: last activity
stamped and a present adapter handle. -/
def stamped {DB : Type} (ops : EngineOps DB) (now : String)
    (s : Session DB) : Session DB :=
  { s with last_activity_at := now,
           adapter := some (s.adapter.getD ops.attach) }

/-- Abbreviation for the session as reset_session rewrites it. -/
def resetS {DB : Type} (ops : EngineOps DB) (now : String)
    (s : Session DB) : Session DB :=
  { s with last_activity_at := now,
           adapter := some (ops.resetDB (s.adapter.getD ops.attach)),
           query_history := [] }

/-- The history record execute_query appends for a given engine result. -/
def execItem (res : QueryResult) (now sql : String) : QueryHistoryItem :=
  { sql := sql, timestamp := now, success := res.success,
    execution_time_ms := res.execution_time_ms, row_count := res.row_count,
    error_message := res.error_message }

/-- Abbreviation for the session as execute_query rewrites it. -/
def execS {DB : Type} (ops : EngineOps DB) (now sql : String) (m : Nat)
    (s : Session DB) : Session DB :=
  { s with last_activity_at := now,
           adapter := some (ops.exec (s.adapter.getD ops.attach) sql).2,
           query_history := trimH m (s.query_history ++
             [execItem (ops.exec (s.adapter.getD ops.attach) sql).1 now sql]) }

/-- Sequential execution of a list of statements in one session,
threading the registry state (the iteration used to state the cap-N
insertion property). -/
def execMany {DB : Type} (ops : EngineOps DB) (now : String)
    (st : SMState DB) (sid : String) : List String → SMState DB
  | [] => st
  | sql :: rest =>
      execMany ops now (execute_query ops now st sid sql).2 sid rest

/-- Challenge difficulty tiers (models.Difficulty). -/
inductive Difficulty where
  | beginner | intermediate | advanced | expert
deriving DecidableEq, Repr

/-- Challenge categories (models.ChallengeCategory). -/
inductive ChallengeCategory where
  | select_basics | filtering | joins | aggregation | ddl | dml
deriving DecidableEq, Repr

/-- Immutable challenge content (models.Challenge). -/
structure Challenge where
  id : String
  title : String := ""
  description : String := ""
  category : ChallengeCategory := ChallengeCategory.select_basics
  difficulty : Difficulty := Difficulty.beginner
  xp_reward : Int
  setup_sql : List String := []
  validation_rules : List ValidationRule := []
  expected_query : Option String := none
  hints : List String := []
  hint_penalty_xp : Int := 5
  estimated_time_minutes : Int := 5
  prerequisites : List String := []
  tags : List String := []
  concept_explanation : Option String := none
deriving DecidableEq, Repr

/-- The result of grading one submission (models.ChallengeSubmission).
actual_output is Any in the source with default None; here None is
Option.none and a list of result rows is Option.some. -/
structure ChallengeSubmission where
  challenge_id : String
  session_id : String
  submitted_sql : String
  submitted_at : String
  passed : Bool
  execution_time_ms : ℚ
  hints_used : Int
  xp_earned : Int
  feedback : String
  actual_output : Option (List Row) := none
deriving DecidableEq, Repr

/-- Per-user progression accumulator (models.UserProgress). -/
structure UserProgress where
  user_id : String
  total_xp : Int := 0
  current_level : Int := 1
  current_streak : Int := 0
  longest_streak : Int := 0
  last_activity_date : Option String := none
  completed_challenges : List String := []
  earned_badges : List String := []
  total_queries_executed : Int := 0
  hints_used : Int := 0
deriving DecidableEq, Repr

/-- One row of the static level table (models.LevelDefinition). -/
structure LevelDefinition where
  level : Int
  name : String
  xp_required : Int
deriving DecidableEq, Repr

/-- The static level thresholds (models.LEVELS). -/
def LEVELS : List LevelDefinition :=
  [⟨1, "SQL Novice", 0⟩,
   ⟨2, "Query Apprentice", 100⟩,
   ⟨3, "Data Explorer", 300⟩,
   ⟨4, "Table Master", 600⟩,
   ⟨5, "Join Journeyman", 1000⟩,
   ⟨6, "Aggregate Adept", 1500⟩,
   ⟨7, "Schema Sage", 2100⟩,
   ⟨8, "Index Innovator", 2800⟩,
   ⟨9, "Database Architect", 3600⟩,
   ⟨10, "SQL Grandmaster", 5000⟩]

/-- A badge criteria payload (the Any-typed criteria_value field holds
either an int threshold or a category name string). -/
inductive CriteriaValue where
  | int (n : Int)
  | str (s : String)
deriving DecidableEq, Repr

/-- An achievement badge (models.Badge). -/
structure Badge where
  id : String
  name : String
  description : String
  icon : String
  criteria_type : String
  criteria_value : CriteriaValue
  xp_bonus : Int := 0
deriving DecidableEq, Repr

/-- The static badge table (models.BADGES). -/
def BADGES : List Badge :=
  [⟨"first_query", "First Steps", "Execute your first SQL query", "rocket",
    "query_count", CriteriaValue.int 1, 0⟩,
   ⟨"first_challenge", "Challenge Accepted", "Complete your first challenge",
    "trophy", "challenge_count", CriteriaValue.int 1, 0⟩,
   ⟨"streak_3", "Consistent", "Maintain a 3-day streak", "fire",
    "streak", CriteriaValue.int 3, 0⟩,
   ⟨"streak_7", "Dedicated", "Maintain a 7-day streak", "fire",
    "streak", CriteriaValue.int 7, 0⟩,
   ⟨"select_master", "SELECT Master", "Complete all SELECT challenges", "star",
    "category_complete", CriteriaValue.str "select_basics", 0⟩,
   ⟨"join_expert", "Join Expert", "Complete all JOIN challenges", "link",
    "category_complete", CriteriaValue.str "joins", 0⟩,
   ⟨"speed_demon", "Speed Demon", "Complete a challenge in under 30 seconds",
    "bolt", "speed", CriteriaValue.int 30, 0⟩,
   ⟨"ten_challenges", "Getting Serious", "Complete 10 challenges", "award",
    "challenge_count", CriteriaValue.int 10, 0⟩]

/-- Python int comparison n >= criteria_value. The string case would be a
TypeError at runtime; it is unreachable because every badge whose
criteria_type is one of the three handled kinds carries an int. -/
def intGeCV (n : Int) : CriteriaValue → Bool
  | CriteriaValue.int m => decide (n ≥ m)
  | CriteriaValue.str _ => false

/-- ChallengeEngine._calculate_level: the last level of the table whose
threshold is at most the experience total. -/
def calculate_level (xp : Int) : Int :=
  LEVELS.foldl (fun level ld => if xp ≥ ld.xp_required then ld.level else level) 1

/-- ChallengeEngine._check_badges: walk the badge table in order, skip
badges already earned, evaluate the criteria the engine implements
(challenge_count, streak, query_count; any other criteria_type leaves
earned as False), and award the badge id plus its one-time bonus. -/
def check_badges (progress : UserProgress) : UserProgress :=
  BADGES.foldl
    (fun p badge =>
      if p.earned_badges.contains badge.id then p
      else
        let earned :=
          if badge.criteria_type = "challenge_count" then
            intGeCV (p.completed_challenges.length : Int) badge.criteria_value
          else if badge.criteria_type = "streak" then
            intGeCV p.current_streak badge.criteria_value
          else if badge.criteria_type = "query_count" then
            intGeCV p.total_queries_executed badge.criteria_value
          else false
        if earned then
          { p with earned_badges := p.earned_badges ++ [badge.id],
                   total_xp := p.total_xp + badge.xp_bonus }
        else p)
    progress

/-- The challenge engine state: its session manager plus the per-user
progression map (ChallengeEngine._user_progress). -/
structure CEState (DB : Type) where
  sm : SMState DB
  user_progress : List (String × UserProgress) := []
deriving DecidableEq

/-- The zeroed record UserProgress(user_id=uid). -/
def defaultProgress (uid : String) : UserProgress := { user_id := uid }

/-- ChallengeEngine.get_user_progress: lazily create a zeroed record on
first access. -/
def get_user_progress {DB : Type} (st : CEState DB) (uid : String) :
    UserProgress × CEState DB :=
  match dget st.user_progress uid with
  | some p => (p, st)
  | none =>
      (defaultProgress uid,
       { st with user_progress := dset st.user_progress uid (defaultProgress uid) })

/-- The setup loop of ChallengeEngine.setup_challenge: execute the setup
statements in order, stopping at the first failure. -/
def runSetupSql {DB : Type} (ops : EngineOps DB) (now : String)
    (sid : String) (sm : SMState DB) :
    List String → (Bool × String) × SMState DB
  | [] => ((true, "Challenge setup complete"), sm)
  | sql :: rest =>
      let r := execute_query ops now sm sid sql
      if r.1.success then runSetupSql ops now sid r.2 rest
      else ((false, "Setup failed: " ++ pyStrOpt r.1.error_message), r.2)

/-- ChallengeEngine.setup_challenge: reset the session, then run each
setup statement in order, reporting the first failure. -/
def setup_challenge {DB : Type} (ops : EngineOps DB) (now : String)
    (st : CEState DB) (sid : String) (ch : Challenge) :
    (Bool × String) × CEState DB :=
  let r0 := reset_session ops now st.sm sid
  let r := runSetupSql ops now sid r0.2 ch.setup_sql
  (r.1, { st with sm := r.2 })

/-- ChallengeEngine.validate_submission: execute the submission; on an
execution failure return a failing submission with zero reward, the error
as feedback and actual_output None. On successful execution evaluate the
rules; a pass earns max(xp_reward - hints_used * hint_penalty_xp,
xp_reward // 4) with Python floor division; actual_output is always the
result rows on this branch. -/
def validate_submission {DB : Type} (ops : EngineOps DB) (now : String)
    (st : CEState DB) (sid : String) (ch : Challenge)
    (submitted_sql : String) (hints_used : Int) :
    ChallengeSubmission × CEState DB :=
  let r := execute_query ops now st.sm sid submitted_sql
  let st' := { st with sm := r.2 }
  if !r.1.success then
    ({ challenge_id := ch.id, session_id := sid,
       submitted_sql := submitted_sql, submitted_at := now, passed := false,
       execution_time_ms := r.1.execution_time_ms, hints_used := hints_used,
       xp_earned := 0,
       feedback := "Query error: " ++ pyStrOpt r.1.error_message,
       actual_output := none }, st')
  else
    let pf := validate_against_rules r.1 ch.validation_rules
    let xp : Int :=
      if pf.1 then
        max (ch.xp_reward - hints_used * ch.hint_penalty_xp)
          (Int.fdiv ch.xp_reward 4)
      else 0
    ({ challenge_id := ch.id, session_id := sid,
       submitted_sql := submitted_sql, submitted_at := now, passed := pf.1,
       execution_time_ms := r.1.execution_time_ms, hints_used := hints_used,
       xp_earned := xp, feedback := pf.2,
       actual_output := some r.1.rows }, st')

/-- ChallengeEngine.update_progress: for a passing submission on a not yet
completed challenge, append the challenge id, add the reward, recompute
the level, update the streak (Python truthiness: a None or empty last
activity date starts the streak at 1, any different stored date increments
it), stamp the activity date, update the longest streak, and run the badge
check; in every case accumulate the submission's hint count. The date
string today stands for datetime.utcnow().date().isoformat(). -/
def update_progress {DB : Type} (st : CEState DB) (uid : String)
    (submission : ChallengeSubmission) (today : String) : CEState DB :=
  let r := get_user_progress st uid
  let progress := r.1
  let st₁ := r.2
  let p' :=
    if submission.passed &&
        !progress.completed_challenges.contains submission.challenge_id then
      let p1 := { progress with
        completed_challenges :=
          progress.completed_challenges ++ [submission.challenge_id] }
      let p2 := { p1 with total_xp := p1.total_xp + submission.xp_earned }
      let p3 := { p2 with current_level := calculate_level p2.total_xp }
      let p4 :=
        if p3.last_activity_date.getD "" ≠ "" then
          if p3.last_activity_date.getD "" ≠ today then
            { p3 with current_streak := p3.current_streak + 1 }
          else p3
        else { p3 with current_streak := 1 }
      let p5 := { p4 with last_activity_date := some today }
      let p6 := { p5 with
        longest_streak := max p5.longest_streak p5.current_streak }
      check_badges p6
    else progress
  let p'' := { p' with hints_used := p'.hints_used + submission.hints_used }
  { st₁ with user_progress := dset st₁.user_progress uid p'' }

/-! ### Concrete fixtures for closed-instance evaluation

A scripted engine instance: its state is the list of results still to be
served, one per executed statement, which realizes the EngineOps black box
on concrete data. -/

/-- The result a scripted engine serves once its script is exhausted. -/
def scriptExhausted : QueryResult :=
  { success := false, error_message := some "script exhausted" }

/-- Engine operations for the scripted engine. -/
def scriptOps : EngineOps (List QueryResult) :=
  { exec := fun db _ => (db.headD scriptExhausted, db.tail),
    resetDB := fun _ => [],
    fresh := [],
    attach := [] }

/-- A one-cell result row. -/
def okRow : Row := [("x", Value.int 1)]

/-- A successful one-row result. -/
def okResult : QueryResult :=
  { success := true, rows := [okRow], columns := ["x"], row_count := 1 }

/-- A failing execution result. -/
def errResult : QueryResult :=
  { success := false, error_message := some "syntax error" }

/-- A concrete session backed by the scripted engine. -/
def mkSession (sid : String) (db : List QueryResult) : Session (List QueryResult) :=
  { session_id := sid, db_path := "/tmp/learndb_sessions/" ++ sid ++ "/db.file",
    created_at := "t0", last_activity_at := "t0", adapter := some db }

/-- A registry holding one session named s1 whose engine will serve the
given script. -/
def oneSessionSM (db : List QueryResult) : SMState (List QueryResult) :=
  { sessions := [("s1", mkSession "s1" db)] }

theorem dset_dset {α : Type} (d : List (String × α)) (k : String)
    (v w : α) : dset (dset d k v) k w = dset d k w := by
  induction d with
  | nil => simp [dset]
  | cons kv rest ih =>
      by_cases h : kv.1 = k
      · simp [dset, h]
      · simp [dset, h, ih]

theorem get_session_some {DB : Type} (ops : EngineOps DB) (now : String)
    (st : SMState DB) (sid : String) (s : Session DB)
    (h : dget st.sessions sid = some s) (hact : s.is_active = true) :
    get_session ops now st sid =
      (some (stamped ops now s),
       { st with sessions := dset st.sessions sid (stamped ops now s) }) := by
  unfold get_session
  rw [h]
  simp [hact, stamped]

theorem execute_query_some {DB : Type} (ops : EngineOps DB) (now : String)
    (st : SMState DB) (sid sql : String) (s : Session DB)
    (h : dget st.sessions sid = some s) (hact : s.is_active = true) :
    execute_query ops now st sid sql =
      ((ops.exec (s.adapter.getD ops.attach) sql).1,
       { st with sessions := dset st.sessions sid (execS ops now sql st.max_history_items s) }) := by
  unfold execute_query
  rw [get_session_some ops now st sid s h hact]
  simp [stamped, execS, execItem, dset_dset]

theorem reset_session_some {DB : Type} (ops : EngineOps DB) (now : String)
    (st : SMState DB) (sid : String) (s : Session DB)
    (h : dget st.sessions sid = some s) (hact : s.is_active = true) :
    reset_session ops now st sid =
      (true, { st with sessions := dset st.sessions sid (resetS ops now s) }) := by
  unfold reset_session
  rw [get_session_some ops now st sid s h hact]
  simp [stamped, resetS, dset_dset]

/-- A challenge passing on any one-row result: base reward 50, default
per-hint penalty 5. -/
def chRowCount1 : Challenge :=
  { id := "ch_rc1", xp_reward := 50,
    validation_rules := [ValidationRule.row_count 1 false false] }

/-- The engine state used for concrete runs: one session s1 whose scripted
engine serves a single successful one-row result. -/
def stOne : CEState (List QueryResult) := { sm := oneSessionSM [okResult] }

/-- A passing submission record for the already-completed challenge
ch_rc1, used for progression idempotence runs. -/
def subPass : ChallengeSubmission :=
  { challenge_id := "ch_rc1", session_id := "s1",
    submitted_sql := "SELECT 1", submitted_at := "t1", passed := true,
    execution_time_ms := 0, hints_used := 2, xp_earned := 35,
    feedback := "All validations passed! Great job!" }

/-- A progress record that has already completed ch_rc1. -/
def pDone : UserProgress :=
  { user_id := "u1", total_xp := 50, current_level := 1,
    completed_challenges := ["ch_rc1"] }

/-- Engine state with one session and one user progress record. -/
def stProg : CEState (List QueryResult) :=
  { sm := oneSessionSM [okResult], user_progress := [("u1", pDone)] }

/-- The select_basics challenge ids of the content catalog
(backend/content/challenges/select_basics.py). -/
def SELECT_BASICS_IDS : List String :=
  ["select_001", "select_002", "select_003", "select_004", "select_005"]

/-- Modelled from the spec: the trigger predicate of the select_basics
category-completion badge. The engine code has no predicate for
criteria_type category_complete (missing from _check_badges), so per the
spec's badge table the predicate is category completion: every challenge
of the category is in the completed set. -/
def categoryCompleteSelect (p : UserProgress) : Bool :=
  SELECT_BASICS_IDS.all (fun cid => p.completed_challenges.contains cid)

/-- A progress record one select_basics challenge away from completing
the category, with the first-challenge badge already earned. -/
def pFourSelect : UserProgress :=
  { user_id := "u1", total_xp := 200, current_level := 2,
    current_streak := 1, longest_streak := 1,
    last_activity_date := some "2026-10-11",
    completed_challenges :=
      ["select_001", "select_002", "select_003", "select_004"],
    earned_badges := ["first_challenge"] }

/-- A first-time passing submission for the last select_basics
challenge. -/
def subSelect5 : ChallengeSubmission :=
  { challenge_id := "select_005", session_id := "s1",
    submitted_sql := "SELECT name FROM fruits", submitted_at := "t1",
    passed := true, execution_time_ms := 0, hints_used := 0,
    xp_earned := 50, feedback := "All validations passed! Great job!" }

/-- Engine state for the category-badge run. -/
def stC2 : CEState (List QueryResult) :=
  { sm := { sessions := [] }, user_progress := [("u1", pFourSelect)] }

/-! ### Dictionary lemmas -/

theorem dget_cons {α : Type} (kv : String × α) (rest : List (String × α))
    (k : String) :
    dget (kv :: rest) k = if kv.1 = k then some kv.2 else dget rest k := by
  by_cases h : kv.1 = k <;> simp [dget, List.find?, h]

theorem dget_dset {α : Type} (d : List (String × α)) (k k' : String)
    (v : α) :
    dget (dset d k v) k' = if k = k' then some v else dget d k' := by
  induction d with
  | nil => by_cases h : k = k' <;> simp [dset, dget, List.find?, h]
  | cons kv rest ih =>
      by_cases h1 : kv.1 = k
      · by_cases h2 : k = k'
        · simp [dset, h1, dget_cons, h2]
        · have h3 : ¬ kv.1 = k' := by rw [h1]; exact h2
          simp [dset, h1, dget_cons, h2, h3]
      · by_cases h3 : kv.1 = k'
        · have h2 : ¬ k = k' := fun hh => h1 (by rw [h3]; exact hh.symm)
          have h4 : ¬ k' = k := fun hh => h2 hh.symm
          simp [dset, h1, dget_cons, h3, h2, h4]
        · simp [dset, h1, dget_cons, h3, ih]

theorem dget_derase {α : Type} (d : List (String × α)) (k k' : String) :
    dget (derase d k) k' = if k = k' then none else dget d k' := by
  induction d with
  | nil => simp [derase, dget, List.find?]
  | cons kv rest ih =>
      by_cases h1 : kv.1 = k
      · by_cases h2 : k = k'
        · subst h2; simp [derase, h1, ih]
        · have h3 : ¬ kv.1 = k' := by rw [h1]; exact h2
          simp [derase, h1, dget_cons, h2, h3, ih]
      · by_cases h3 : kv.1 = k'
        · have h2 : ¬ k = k' := fun hh => h1 (by rw [h3]; exact hh.symm)
          have h4 : ¬ k' = k := fun hh => h2 hh.symm
          simp [derase, h1, dget_cons, h3, h2, h4]
        · by_cases h2 : k = k'
          · subst h2; simp [derase, h1, dget_cons, h3, ih]
          · simp [derase, h1, dget_cons, h3, h2, ih]

/-! ### C1 — actual_output on success -/

/-- C1 counterexample: a submission that executes successfully and passes
every validation rule nevertheless carries its result rows in
actual_output; the field is not withheld on success. -/
theorem c1_actual_output_populated_on_pass_cex :
    ((validate_submission scriptOps "t1" stOne "s1" chRowCount1
        "SELECT 1" 0).1.passed = true) ∧
    ((validate_submission scriptOps "t1" stOne "s1" chRowCount1
        "SELECT 1" 0).1.actual_output = some [okRow]) := by
  decide

/-- C1 (amended): validate_submission withholds actual_output exactly when
query execution fails; on successful execution it is populated with the
result rows whether or not the rules pass (the HTTP route, not the engine,
masks it on success). -/
theorem c1_validate_submission_actual_output {DB : Type} (ops : EngineOps DB)
    (now : String) (st : CEState DB) (sid : String) (ch : Challenge)
    (sql : String) (hints : Int) :
    (validate_submission ops now st sid ch sql hints).1.actual_output =
      (if (execute_query ops now st.sm sid sql).1.success then
        some (execute_query ops now st.sm sid sql).1.rows
       else none) := by
  unfold validate_submission
  by_cases h : (execute_query ops now st.sm sid sql).1.success <;> simp [h]

/-! ### C3 — reward formula and floor -/

/-- C3: for a challenge with non-negative base reward, a passing
submission earns max(xp_reward - hints_used * hint_penalty_xp,
xp_reward // 4) with Python floor division, which is non-negative; any
non-passing submission (including execution failure) earns zero. -/
theorem c3_validate_submission_xp {DB : Type} (ops : EngineOps DB)
    (now : String) (st : CEState DB) (sid : String) (ch : Challenge)
    (sql : String) (hints : Int) (hR : 0 ≤ ch.xp_reward) (hH : 0 ≤ hints) :
    ((validate_submission ops now st sid ch sql hints).1.passed = true →
      (validate_submission ops now st sid ch sql hints).1.xp_earned =
        max (ch.xp_reward - hints * ch.hint_penalty_xp)
          (Int.fdiv ch.xp_reward 4) ∧
      0 ≤ (validate_submission ops now st sid ch sql hints).1.xp_earned) ∧
    ((validate_submission ops now st sid ch sql hints).1.passed = false →
      (validate_submission ops now st sid ch sql hints).1.xp_earned = 0) := by
  have hq : (0:Int) ≤ Int.fdiv ch.xp_reward 4 :=
    Int.fdiv_nonneg hR (by norm_num)
  unfold validate_submission
  by_cases h : (execute_query ops now st.sm sid sql).1.success
  · simp only [h, Bool.not_true, Bool.false_eq_true, if_false]
    by_cases hp :
        (validate_against_rules (execute_query ops now st.sm sid sql).1
          ch.validation_rules).1
    · simp [hp]
      exact Or.inr hq
    · simp [hp]
  · simp [h]

/-- C3 witness: the concrete passing run with reward 50, penalty 5 and
three hints earns max(50 - 15, 12) = 35. -/
theorem c3_validate_submission_xp_witness :
    (0:Int) ≤ (50:Int) ∧ (0:Int) ≤ (3:Int) ∧
    ((validate_submission scriptOps "t1" stOne "s1" chRowCount1
        "SELECT 1" 3).1.passed = true →
      (validate_submission scriptOps "t1" stOne "s1" chRowCount1
          "SELECT 1" 3).1.xp_earned =
        max ((50:Int) - 3 * 5) (Int.fdiv 50 4) ∧
      0 ≤ (validate_submission scriptOps "t1" stOne "s1" chRowCount1
          "SELECT 1" 3).1.xp_earned) := by
  refine ⟨by decide, by decide, ?_⟩
  exact (c3_validate_submission_xp scriptOps "t1" stOne "s1" chRowCount1
    "SELECT 1" 3 (by decide) (by decide)).1

/-! ### C4 — execute after delete, repeated delete -/

/-- C4: deleting a present session succeeds; execute_query afterwards
returns the not-found failure result, and the two further deletes of the
same id both return false (no error). -/
theorem c4_execute_after_delete {DB : Type} (ops : EngineOps DB)
    (now : String) (st : SMState DB) (sid sql : String) (s : Session DB)
    (h : dget st.sessions sid = some s) :
    (delete_session st sid).1 = true ∧
    (execute_query ops now (delete_session st sid).2 sid sql).1 =
      sessionNotFound sid ∧
    (delete_session (delete_session st sid).2 sid).1 = false ∧
    (delete_session (delete_session (delete_session st sid).2 sid).2 sid).1 =
      false := by
  have h1 : delete_session st sid =
      (true, { st with sessions := derase st.sessions sid }) := by
    unfold delete_session
    rw [h]
  have h2 : dget (derase st.sessions sid) sid = none := by
    rw [dget_derase]; simp
  refine ⟨by rw [h1], ?_, ?_, ?_⟩
  · rw [h1]
    unfold execute_query get_session
    simp [h2]
  · rw [h1]
    unfold delete_session
    simp [h2]
  · rw [h1]
    unfold delete_session
    simp [h2]

/-- C4 witness: the concrete one-session registry. -/
theorem c4_execute_after_delete_witness :
    dget (oneSessionSM [okResult]).sessions "s1" =
      some (mkSession "s1" [okResult]) ∧
    (delete_session (oneSessionSM [okResult]) "s1").1 = true ∧
    (execute_query scriptOps "t1"
        (delete_session (oneSessionSM [okResult]) "s1").2 "s1" "SELECT 1").1 =
      sessionNotFound "s1" ∧
    (delete_session (delete_session (oneSessionSM [okResult]) "s1").2
        "s1").1 = false ∧
    (delete_session (delete_session
        (delete_session (oneSessionSM [okResult]) "s1").2 "s1").2 "s1").1 =
      false := by
  refine ⟨by decide, ?_⟩
  have h := c4_execute_after_delete scriptOps "t1" (oneSessionSM [okResult])
    "s1" "SELECT 1" (mkSession "s1" [okResult]) (by decide)
  exact ⟨h.1, h.2.1, h.2.2.1, h.2.2.2⟩

/-! ### C9 — reset clears history and keeps the session usable -/

/-- C9: for a present active session, reset_session returns true, clears
the history, preserves identity and mode, reinitializes the backing store
to the engine reset state, and leaves the session executable (a following
execute_query reaches the engine on the reset store rather than
not-found); for an absent id it returns false. -/
theorem c9_reset_session {DB : Type} (ops : EngineOps DB) (now : String)
    (st : SMState DB) (sid : String) :
    (∀ s : Session DB, dget st.sessions sid = some s → s.is_active = true →
      (reset_session ops now st sid).1 = true ∧
      ∃ s' : Session DB,
        dget (reset_session ops now st sid).2.sessions sid = some s' ∧
        s'.query_history = [] ∧
        s'.session_id = s.session_id ∧
        s'.current_mode = s.current_mode ∧
        s'.adapter = some (ops.resetDB (s.adapter.getD ops.attach)) ∧
        (∀ sql : String,
          (execute_query ops now (reset_session ops now st sid).2 sid
              sql).1 =
            (ops.exec (ops.resetDB (s.adapter.getD ops.attach)) sql).1)) ∧
    (dget st.sessions sid = none → (reset_session ops now st sid).1 = false) := by
  constructor
  · intro s h hact
    rw [reset_session_some ops now st sid s h hact]
    have h2 : dget (dset st.sessions sid (resetS ops now s)) sid =
        some (resetS ops now s) := by
      simpa using dget_dset st.sessions sid sid (resetS ops now s)
    refine ⟨rfl, resetS ops now s, h2, rfl, rfl, rfl, rfl, ?_⟩
    intro sql
    rw [execute_query_some ops now _ sid sql (resetS ops now s) h2
      (by simpa [resetS] using hact)]
    simp [resetS]
  · intro h
    unfold reset_session get_session
    rw [h]

/-- C9 witness: reset on the concrete one-session registry. -/
theorem c9_reset_session_witness :
    ((reset_session scriptOps "t1" (oneSessionSM [okResult]) "s1").1 = true ∧
      ∃ s' : Session (List QueryResult),
        dget (reset_session scriptOps "t1"
            (oneSessionSM [okResult]) "s1").2.sessions "s1" = some s' ∧
        s'.query_history = [] ∧
        s'.session_id = (mkSession "s1" [okResult]).session_id ∧
        s'.current_mode = (mkSession "s1" [okResult]).current_mode ∧
        s'.adapter = some (scriptOps.resetDB
          ((mkSession "s1" [okResult]).adapter.getD scriptOps.attach)) ∧
        (∀ sql : String,
          (execute_query scriptOps "t1"
              (reset_session scriptOps "t1"
                (oneSessionSM [okResult]) "s1").2 "s1" sql).1 =
            (scriptOps.exec (scriptOps.resetDB
              ((mkSession "s1" [okResult]).adapter.getD scriptOps.attach))
              sql).1)) := by
  exact (c9_reset_session scriptOps "t1" (oneSessionSM [okResult]) "s1").1
    (mkSession "s1" [okResult]) (by decide) (by decide)

/-! ### C6 — progression idempotence -/

/-- C6: recording a passing submission for a challenge already in the
user's completed set leaves the stored progress unchanged except for the
hint accumulator: total experience, level, streaks, completed set and
badges are all untouched. -/
theorem c6_update_progress_idempotent {DB : Type} (st : CEState DB)
    (uid today : String) (sub : ChallengeSubmission) (p : UserProgress)
    (hpass : sub.passed = true)
    (hp : dget st.user_progress uid = some p)
    (hdone : p.completed_challenges.contains sub.challenge_id = true) :
    dget (update_progress st uid sub today).user_progress uid =
      some { p with hints_used := p.hints_used + sub.hints_used } := by
  unfold update_progress get_user_progress
  rw [hp]
  simp only [hdone, Bool.not_true, Bool.and_false]
  simpa using dget_dset st.user_progress uid uid
    ({ p with hints_used := p.hints_used + sub.hints_used })

/-- C6 witness: the concrete already-completed run; the stored record
changes only in hints_used. -/
theorem c6_update_progress_idempotent_witness :
    subPass.passed = true ∧
    dget stProg.user_progress "u1" = some pDone ∧
    pDone.completed_challenges.contains subPass.challenge_id = true ∧
    dget (update_progress stProg "u1" subPass "2026-10-12").user_progress
        "u1" =
      some { pDone with hints_used := pDone.hints_used + subPass.hints_used } := by
  refine ⟨by decide, by decide, by decide, ?_⟩
  exact c6_update_progress_idempotent stProg "u1" "2026-10-12" subPass pDone
    (by decide) (by decide) (by decide)

/-! ### C10 — validation does not touch progression -/

/-- C10: validate_submission and setup_challenge leave the per-user
progress map exactly as it was, and get_user_progress preserves every
existing record (it can only add a fresh zeroed one); progress fields
change only through update_progress. -/
theorem c10_validation_frames_progress {DB : Type} (ops : EngineOps DB)
    (now : String) (st : CEState DB) (sid : String) (ch : Challenge)
    (sql : String) (hints : Int) (uid : String) :
    (validate_submission ops now st sid ch sql hints).2.user_progress =
      st.user_progress ∧
    (setup_challenge ops now st sid ch).2.user_progress =
      st.user_progress ∧
    (∀ (uid' : String) (p : UserProgress),
      dget st.user_progress uid' = some p →
      dget (get_user_progress st uid).2.user_progress uid' = some p) := by
  refine ⟨?_, rfl, ?_⟩
  · unfold validate_submission
    by_cases h : (execute_query ops now st.sm sid sql).1.success <;> simp [h]
  · intro uid' p hp
    cases hq : dget st.user_progress uid with
    | none =>
        simp only [get_user_progress, hq]
        rw [dget_dset]
        by_cases he : uid = uid'
        · subst he; rw [hq] at hp; cases hp
        · simp [he, hp]
    | some q => simp [get_user_progress, hq, hp]

/-- C10 witness: concrete frame run, with the lazy-creation case exercised
for a different user id. -/
theorem c10_validation_frames_progress_witness :
    (validate_submission scriptOps "t1" stProg "s1" chRowCount1
        "SELECT 1" 0).2.user_progress = stProg.user_progress ∧
    dget (get_user_progress stProg "u2").2.user_progress "u1" =
      some pDone := by
  have h := c10_validation_frames_progress scriptOps "t1" stProg "s1"
    chRowCount1 "SELECT 1" 0 "u2"
  exact ⟨h.1, h.2.2 "u1" pDone (by decide)⟩

/-! ### C7 — ordered short-circuit rule evaluation -/

/-- C7: on a successfully executed submission, validate_submission's
verdict and feedback are those of validate_against_rules on the declared
rule list; rule evaluation is in declared order, short-circuits on the
first failing rule with that rule's feedback (the rules after it are
irrelevant), and an all-pass list yields the passing verdict. -/
theorem c7_rules_order_short_circuit {DB : Type} (ops : EngineOps DB)
    (now : String) (st : CEState DB) (sid : String) (ch : Challenge)
    (sql : String) (hints : Int)
    (hsucc : (execute_query ops now st.sm sid sql).1.success = true) :
    ((validate_submission ops now st sid ch sql hints).1.passed =
        (validate_against_rules (execute_query ops now st.sm sid sql).1
          ch.validation_rules).1 ∧
      (validate_submission ops now st sid ch sql hints).1.feedback =
        (validate_against_rules (execute_query ops now st.sm sid sql).1
          ch.validation_rules).2) ∧
    (∀ (res : QueryResult) (pre post : List ValidationRule)
        (r : ValidationRule),
      (∀ r' ∈ pre, (check_rule res r').1 = true) →
      (check_rule res r).1 = false →
      validate_against_rules res (pre ++ r :: post) =
        (false, (check_rule res r).2)) ∧
    (∀ (res : QueryResult) (rules : List ValidationRule),
      (∀ r ∈ rules, (check_rule res r).1 = true) →
      validate_against_rules res rules =
        (true, "All validations passed! Great job!")) := by
  refine ⟨?_, ?_, ?_⟩
  · unfold validate_submission
    simp [hsucc]
  · intro res pre post r hpre hr
    induction pre with
    | nil => simp [validate_against_rules, hr]
    | cons p pre' ih =>
        have hp := hpre p (List.mem_cons_self p pre')
        simp only [List.cons_append, validate_against_rules, hp, if_true]
        exact ih (fun r' hr' => hpre r' (List.mem_cons_of_mem p hr'))
  · intro res rules hall
    induction rules with
    | nil => rfl
    | cons r rest ih =>
        have hr := hall r (List.mem_cons_self r rest)
        simp only [validate_against_rules, hr, if_true]
        exact ih (fun r' hr' => hall r' (List.mem_cons_of_mem r hr'))

/-- C7 witness: a concrete three-rule list where the second rule fails:
evaluation stops there with that rule's feedback regardless of the third
rule. -/
theorem c7_rules_order_short_circuit_witness :
    (execute_query scriptOps "t1" stOne.sm "s1" "SELECT 1").1.success =
      true ∧
    validate_against_rules okResult
        ([ValidationRule.row_count 1 false false] ++
          ValidationRule.row_count 2 false false ::
            [ValidationRule.row_count 3 false false]) =
      (false,
        (check_rule okResult (ValidationRule.row_count 2 false false)).2) := by
  refine ⟨by decide, ?_⟩
  exact (c7_rules_order_short_circuit scriptOps "t1" stOne "s1" chRowCount1
      "SELECT 1" 0 (by decide)).2.1 okResult
    [ValidationRule.row_count 1 false false]
    [ValidationRule.row_count 3 false false]
    (ValidationRule.row_count 2 false false)
    (by decide) (by decide)

/-! ### C2 — badge awarding misses two criteria kinds -/

/-- C2: failing input for the badge-award claim. A first-time passing
submission for select_005 completes every select_basics challenge, so the
category-completion trigger predicate of the select_master badge holds on
the updated progress, yet the badge is not awarded and no bonus is added:
_check_badges evaluates only challenge_count, streak and query_count
criteria, leaving category_complete (and speed) badges unawardable. -/
theorem c2_category_badge_never_awarded :
    ((dget (update_progress stC2 "u1" subSelect5 "2026-10-12").user_progress
        "u1").map categoryCompleteSelect = some true) ∧
    ((dget (update_progress stC2 "u1" subSelect5 "2026-10-12").user_progress
        "u1").map (fun p => p.earned_badges.contains "select_master") =
      some false) := by
  constructor
  · rfl
  · rfl

/-! ### C8 — symmetry of row equality (case-insensitive) -/

theorem pyEq_symm (e a : Value) : pyEq e a = pyEq a e := by
  cases e <;> cases a <;> simp [pyEq, eq_comm]

theorem valMatch_symm (e a : Value) : valMatch e a false = valMatch a e false := by
  cases e <;> cases a <;> simp [valMatch, pyEq, eq_comm, abs_sub_comm]

theorem dgetD_cons (kv : String × Value) (rest : Row) (k : String) :
    dgetD (kv :: rest) k = if kv.1 = k then kv.2 else dgetD rest k := by
  by_cases h : kv.1 = k <;> simp [dgetD, List.find?, h]

theorem dgetD_eq_of_mem (d : Row) (k : String) (v : Value)
    (hnd : (d.map Prod.fst).Nodup) (hm : (k, v) ∈ d) : dgetD d k = v := by
  induction d with
  | nil => cases hm
  | cons kv rest ih =>
      simp only [List.map_cons, List.nodup_cons] at hnd
      rcases List.mem_cons.mp hm with hm | hm
      · rw [← hm, dgetD_cons]
        simp
      · have hk : ¬ kv.1 = k := by
          intro hh
          exact hnd.1 (hh ▸ (List.mem_map.mpr ⟨(k, v), hm, rfl⟩))
        rw [dgetD_cons]
        simp only [hk, if_false]
        exact ih hnd.2 hm

theorem mem_keys_dset {α : Type} (d : List (String × α)) (k k' : String)
    (v : α) :
    k' ∈ (dset d k v).map Prod.fst ↔ k' = k ∨ k' ∈ d.map Prod.fst := by
  induction d with
  | nil => simp [dset]
  | cons kv rest ih =>
      by_cases h : kv.1 = k
      · simp only [dset, h, if_pos, List.map_cons]
        rw [← h]
        simp
      · simp only [dset, h, if_neg, not_false_iff, List.map_cons]
        simp [ih]
        tauto

theorem nodup_keys_dset {α : Type} (d : List (String × α)) (k : String)
    (v : α) (h : (d.map Prod.fst).Nodup) :
    ((dset d k v).map Prod.fst).Nodup := by
  induction d with
  | nil => simp [dset]
  | cons kv rest ih =>
      simp only [List.map_cons, List.nodup_cons] at h
      by_cases hk : kv.1 = k
      · simp only [dset, hk, if_pos, List.map_cons, List.nodup_cons]
        exact ⟨by rw [← hk]; exact h.1, h.2⟩
      · simp only [dset, hk, if_neg, not_false_iff, List.map_cons,
          List.nodup_cons]
        refine ⟨?_, ih h.2⟩
        rw [mem_keys_dset]
        rintro (hc | hc)
        · exact hk hc
        · exact h.1 hc

theorem nodup_keys_normKeys (d : Row) :
    ((normKeys d).map Prod.fst).Nodup := by
  suffices h : ∀ acc : Row, (acc.map Prod.fst).Nodup →
      ((d.foldl (fun acc kv => dset acc (pyLower kv.1) kv.2) acc).map
        Prod.fst).Nodup by
    exact h [] (by simp)
  induction d with
  | nil => intro acc h; simpa using h
  | cons kv rest ih =>
      intro acc h
      simp only [List.foldl_cons]
      exact ih _ (nodup_keys_dset _ _ _ h)

theorem keysSub_iff {α : Type} (d₁ d₂ : List (String × α)) :
    keysSub d₁ d₂ = true ↔ ∀ kv ∈ d₁, kv.1 ∈ d₂.map Prod.fst := by
  simp [keysSub, List.all_eq_true, List.any_eq_true, List.mem_map]

/-- Transfer of the pointwise value check across the two iteration
directions, given that the second dict's keys all occur in the first. -/
theorem all_valMatch_swap (en an : Row)
    (hen : (en.map Prod.fst).Nodup) (han : (an.map Prod.fst).Nodup)
    (h2 : keysSub an en = true)
    (h3 : ∀ kv ∈ en, valMatch kv.2 (dgetD an kv.1) false = true) :
    ∀ kv ∈ an, valMatch kv.2 (dgetD en kv.1) false = true := by
  intro kv hkv
  obtain ⟨k, v⟩ := kv
  have hk : k ∈ en.map Prod.fst := (keysSub_iff an en).mp h2 (k, v) hkv
  obtain ⟨x, hx, hkeq⟩ := List.mem_map.mp hk
  obtain ⟨k₁, w⟩ := x
  simp only [] at hkeq
  subst hkeq
  have hv : dgetD an k₁ = v := dgetD_eq_of_mem an k₁ v han hkv
  have hmatch := h3 (k₁, w) hx
  rw [hv] at hmatch
  have hw : dgetD en k₁ = w := dgetD_eq_of_mem en k₁ w hen hx
  simp only [hw]
  rw [valMatch_symm]
  exact hmatch

/-- C8: case-insensitive row equality is symmetric. -/
theorem c8_rows_equal_symmetric (A B : Row) :
    rows_equal A B false = rows_equal B A false := by
  have hA := nodup_keys_normKeys A
  have hB := nodup_keys_normKeys B
  simp only [rows_equal]
  rw [Bool.eq_iff_iff]
  simp only [Bool.and_eq_true, List.all_eq_true]
  constructor
  · rintro ⟨⟨h1, h2⟩, h3⟩
    exact ⟨⟨h2, h1⟩, all_valMatch_swap _ _ hA hB h2 h3⟩
  · rintro ⟨⟨h1, h2⟩, h3⟩
    exact ⟨⟨h2, h1⟩, all_valMatch_swap _ _ hB hA h2 h3⟩

/-! ### C5 — history cap, FIFO eviction -/

theorem trimH_eq_drop {α : Type} (m : Nat) (hm : 0 < m) (l : List α) :
    trimH m l = l.drop (l.length - m) := by
  unfold trimH pySliceLast
  by_cases h : l.length > m
  · simp [h, Nat.pos_iff_ne_zero.mp hm]
  · simp only [h, if_false]
    rw [Nat.sub_eq_zero_of_le (Nat.le_of_not_lt h), List.drop_zero]

theorem trimH_append_trimH {α : Type} (m : Nat) (x y : List α) :
    trimH m (trimH m x ++ y) = trimH m (x ++ y) := by
  rcases Nat.eq_zero_or_pos m with hm | hm
  · subst hm
    have hid : ∀ l : List α, trimH 0 l = l := by
      intro l
      unfold trimH pySliceLast
      simp
    rw [hid, hid, hid]
  · by_cases hx : x.length ≤ m
    · have hxid : trimH m x = x := by
        unfold trimH
        simp [Nat.not_lt.mpr hx]
      rw [hxid]
    · push_neg at hx
      rw [trimH_eq_drop m hm x, trimH_eq_drop m hm, trimH_eq_drop m hm,
        List.drop_append_eq_append_drop, List.drop_append_eq_append_drop,
        List.drop_drop]
      simp only [List.length_append, List.length_drop]
      congr 1
      · congr 1
        omega
      · congr 1
        omega

theorem foldl_trimH_append {α : Type} (m : Nat) :
    ∀ (items : List α) (h0 : List α),
      items.foldl (fun h i => trimH m (h ++ [i])) (trimH m h0) =
        trimH m (h0 ++ items) := by
  intro items
  induction items with
  | nil => intro h0; simp
  | cons i rest ih =>
      intro h0
      simp only [List.foldl_cons]
      rw [trimH_append_trimH, ih (h0 ++ [i]), List.append_assoc,
        List.singleton_append]

theorem execMany_history {DB : Type} (ops : EngineOps DB) (now sid : String) :
    ∀ (sqls : List String) (st : SMState DB) (s : Session DB),
      dget st.sessions sid = some s → s.is_active = true →
      ∃ s' : Session DB,
        dget (execMany ops now st sid sqls).sessions sid = some s' ∧
        s'.is_active = true ∧
        (execMany ops now st sid sqls).max_history_items =
          st.max_history_items ∧
        ∃ items : List QueryHistoryItem,
          items.map (fun i => i.sql) = sqls ∧
          s'.query_history =
            items.foldl (fun h i => trimH st.max_history_items (h ++ [i]))
              s.query_history := by
  intro sqls
  induction sqls with
  | nil =>
      intro st s h hact
      exact ⟨s, h, hact, rfl, [], rfl, rfl⟩
  | cons sql rest ih =>
      intro st s h hact
      have hstep := execute_query_some ops now st sid sql s h hact
      have h₁ : dget (execute_query ops now st sid sql).2.sessions sid =
          some (execS ops now sql st.max_history_items s) := by
        rw [hstep]
        simpa using dget_dset st.sessions sid sid
          (execS ops now sql st.max_history_items s)
      have hact₁ : (execS ops now sql st.max_history_items s).is_active =
          true := by
        simpa [execS] using hact
      obtain ⟨s', hs', hact', hmax, items, hsqls, hhist⟩ :=
        ih (execute_query ops now st sid sql).2
          (execS ops now sql st.max_history_items s) h₁ hact₁
      have hmax' : (execute_query ops now st sid sql).2.max_history_items =
          st.max_history_items := by
        rw [hstep]
      refine ⟨s', by simpa [execMany] using hs',
        hact', by simpa [execMany, hmax'] using hmax,
        execItem (ops.exec (s.adapter.getD ops.attach) sql).1 now sql ::
          items, by simp [execItem, hsqls], ?_⟩
      rw [hmax'] at hhist
      rw [hhist]
      simp only [List.foldl_cons, execS]

/-- C5 counterexample: with max_history_items configured to 0, one
execute_query leaves a history of length 1, exceeding the cap — the
Python trim slice lst[-0:] keeps the whole list. -/
theorem c5_history_cap_zero_cex :
    (dget (execute_query scriptOps "t1"
        { max_history_items := 0,
          sessions := [("s1", mkSession "s1" [okResult])] }
        "s1" "SELECT 1").2.sessions "s1").map
      (fun s => s.query_history.length) = some 1 ∧ 0 < 1 := by
  exact ⟨by decide, by decide⟩

/-- C5 (amended): for every positive configured maximum, the history
length never exceeds the cap after any execute_query and eviction drops
the oldest entries first (the new history is the suffix of old ++ new of
length at most the cap); executing N+1 statements into a session with
empty history at cap N leaves exactly the N most recent statements in
insertion order. -/
theorem c5_history_cap (DB : Type) (ops : EngineOps DB) (now sid : String)
    (st : SMState DB) (hm : 0 < st.max_history_items) :
    (∀ (sql : String) (s : Session DB),
      dget st.sessions sid = some s → s.is_active = true →
      ∃ s' : Session DB,
        dget (execute_query ops now st sid sql).2.sessions sid = some s' ∧
        s'.query_history =
          (s.query_history ++
            [execItem (ops.exec (s.adapter.getD ops.attach) sql).1 now sql]).drop
            (s.query_history.length + 1 - st.max_history_items) ∧
        s'.query_history.length ≤ st.max_history_items) ∧
    (∀ (sqls : List String) (s : Session DB),
      dget st.sessions sid = some s → s.is_active = true →
      s.query_history = [] → sqls.length = st.max_history_items + 1 →
      ∃ s' : Session DB,
        dget (execMany ops now st sid sqls).sessions sid = some s' ∧
        s'.query_history.map (fun i => i.sql) = sqls.drop 1 ∧
        s'.query_history.length = st.max_history_items) := by
  constructor
  · intro sql s h hact
    refine ⟨execS ops now sql st.max_history_items s, ?_, ?_, ?_⟩
    · rw [execute_query_some ops now st sid sql s h hact]
      simpa using dget_dset st.sessions sid sid
        (execS ops now sql st.max_history_items s)
    · simp only [execS]
      rw [trimH_eq_drop _ hm]
      simp
    · simp only [execS]
      rw [trimH_eq_drop _ hm, List.length_drop]
      simp
      omega
  · intro sqls s h hact hemp hlen
    obtain ⟨s', hs', hact', hmax, items, hsqls, hhist⟩ :=
      execMany_history ops now sid sqls st s h hact
    have hitems : items.length = st.max_history_items + 1 := by
      have := congrArg List.length hsqls
      simpa [hlen] using this
    have hfold : s'.query_history = items.drop 1 := by
      have h1 := foldl_trimH_append st.max_history_items items []
      have h2 : trimH st.max_history_items ([] : List QueryHistoryItem) =
          [] := by
        unfold trimH
        simp
      rw [h2] at h1
      rw [hhist, hemp, h1, List.nil_append, trimH_eq_drop _ hm, hitems]
      congr 1
      omega
    refine ⟨s', hs', ?_, ?_⟩
    · rw [hfold, List.map_drop, hsqls]
    · rw [hfold, List.length_drop, hitems]
      omega

/-- C5 witness: cap 2, three statements into an empty history — the two
most recent remain, in order. -/
theorem c5_history_cap_witness :
    0 < (2 : Nat) ∧
    ∃ s' : Session (List QueryResult),
      dget (execMany scriptOps "t1"
          { max_history_items := 2,
            sessions := [("s1", mkSession "s1"
              [okResult, okResult, okResult])] }
          "s1" ["q1", "q2", "q3"]).sessions "s1" = some s' ∧
      s'.query_history.map (fun i => i.sql) = ["q2", "q3"] ∧
      s'.query_history.length = 2 := by
  refine ⟨by decide, ?_⟩
  exact (c5_history_cap (List QueryResult) scriptOps "t1" "s1"
      { max_history_items := 2,
        sessions := [("s1", mkSession "s1" [okResult, okResult, okResult])] }
      (by decide)).2 ["q1", "q2", "q3"]
    (mkSession "s1" [okResult, okResult, okResult])
    (by decide) (by decide) (by decide) (by decide)

end LearnDB
